import Mathlib

/-!
Verification of the `obsidian-mcp-server` repository (Python): a shallow
embedding of `obsidian_mcp_server.py` — the MCP server that saves Claude
responses into an Obsidian vault — together with theorems settling the
frozen claims about its specification.

Modelling conventions:
* Python strings are Lean `String`s; character-level work happens on
  `String.data : List Char` so everything reduces in the kernel.
* Python `datetime.now()` is an explicit `PyDateTime` value threaded in.
* The filesystem is explicit: the vault is a list of
  (path segments, file text) pairs, newest first (`List.lookup` finds the
  newest, which models overwriting); the directory view used by the
  browsing tools is an `FsEntry` forest.
* Python exceptions are `Except String` values; the `handle_call_tool`
  wrapper turns them into error results exactly as the `except` clause does.
* `c.isalnum()` is modelled by ASCII `Char.isAlphanum` and `str.rstrip` by
  `Char.isWhitespace`; the claims only involve ASCII data.
-/

/-- Concatenate a list of strings (Python's `+=` accumulation in a loop). -/
def strConcat : List String → String
  | [] => ""
  | s :: ss => s ++ strConcat ss

/-- Join strings with a separator, `sep.join(ss)` in Python. -/
def joinSep (sep : String) : List String → String
  | [] => ""
  | [s] => s
  | s :: ss => s ++ sep ++ joinSep sep ss

/-- Test that `cs` ends with the suffix `suf` (character lists). -/
def listEndsWith (cs suf : List Char) : Bool :=
  decide (suf.length ≤ cs.length) && (cs.drop (cs.length - suf.length) == suf)

/-- Python `s.endswith(suf)`. -/
def strEndsWith (s suf : String) : Bool :=
  listEndsWith s.data suf.data

/-- Split a character list on a separator character (all fields kept,
Python `s.split(sep)` / `PurePath` segment splitting). -/
def splitOnCharList (sep : Char) : List Char → List (List Char)
  | [] => [[]]
  | c :: cs =>
    let rest := splitOnCharList sep cs
    if c = sep then [] :: rest
    else
      match rest with
      | [] => [[c]]
      | r :: rs => (c :: r) :: rs

/-- Split a string on a separator character, as strings. -/
def splitStr (sep : Char) (s : String) : List String :=
  (splitOnCharList sep s.data).map String.mk

/-- Path segments of a relative path string: `Path(root) / s` treats each
`/`-separated piece of `s` as one directory component. -/
def pathSegsOf (s : String) : List String :=
  splitStr '/' s

/-- Python `str.rstrip()`: drop trailing whitespace characters. -/
def rstripChars (cs : List Char) : List Char :=
  (cs.reverse.dropWhile Char.isWhitespace).reverse

/-- Python `str.lower()` (ASCII model). -/
def lowerStr (s : String) : String :=
  String.mk (s.data.map Char.toLower)

/-- The decimal digit character for `d` (`d ≥ 9` clamps to `'9'`; callers
only pass `d < 10`). -/
def decDigit (d : Nat) : Char :=
  match d with
  | 0 => '0' | 1 => '1' | 2 => '2' | 3 => '3' | 4 => '4'
  | 5 => '5' | 6 => '6' | 7 => '7' | 8 => '8' | _ => '9'

/-- Decimal digits of `n`, most significant first (fuel-driven so the
kernel can evaluate it; `natDigs` supplies enough fuel). -/
def natDigsFuel : Nat → Nat → List Char
  | 0, _ => []
  | fuel + 1, n => if n < 10 then [decDigit n] else natDigsFuel fuel (n / 10) ++ [decDigit (n % 10)]

/-- Decimal digit characters of `n`. -/
def natDigs (n : Nat) : List Char :=
  natDigsFuel (n + 1) n

/-- Rendering of `n` in decimal, zero-padded to width `w`
(Python `strftime` zero-padding). -/
def padNum (w n : Nat) : String :=
  String.mk (List.replicate (w - (natDigs n).length) '0' ++ natDigs n)

/-- A civil timestamp, standing for Python's `datetime.now()`. -/
structure PyDateTime where
  year : Nat
  month : Nat
  day : Nat
  hour : Nat
  minute : Nat
  second : Nat
deriving DecidableEq, Repr

/-- Python `now.strftime("%Y%m%d_%H%M%S")`. -/
def fmtYmdHMS (t : PyDateTime) : String :=
  padNum 4 t.year ++ padNum 2 t.month ++ padNum 2 t.day ++ "_" ++
    padNum 2 t.hour ++ padNum 2 t.minute ++ padNum 2 t.second

/-- Python `now.strftime("%Y-%m-%d %H:%M:%S")`. -/
def fmtDashTime (t : PyDateTime) : String :=
  padNum 4 t.year ++ "-" ++ padNum 2 t.month ++ "-" ++ padNum 2 t.day ++ " " ++
    padNum 2 t.hour ++ ":" ++ padNum 2 t.minute ++ ":" ++ padNum 2 t.second

/-- Python `datetime.now().isoformat()` (microseconds not modelled). -/
def isoFmt (t : PyDateTime) : String :=
  padNum 4 t.year ++ "-" ++ padNum 2 t.month ++ "-" ++ padNum 2 t.day ++ "T" ++
    padNum 2 t.hour ++ ":" ++ padNum 2 t.minute ++ ":" ++ padNum 2 t.second

/-- The safe-character test of `_save_to_obsidian`:
`c.isalnum() or c in (' ', '-', '_')`. -/
def isSafeChar (c : Char) : Bool :=
  c.isAlphanum || c = ' ' || c = '-' || c = '_'

/-- Python `"".join(c for c in title if c.isalnum() or c in (' ', '-', '_')).rstrip()`. -/
def safeTitleOf (title : String) : String :=
  String.mk (rstripChars (title.data.filter isSafeChar))

/-- The filename derived by `_save_to_obsidian`:
`f"{timestamp_prefix}_{safe_title}.md"`. -/
def deriveFilename (title : String) (now : PyDateTime) : String :=
  fmtYmdHMS now ++ "_" ++ safeTitleOf title ++ ".md"

/-- The structured contents of a parsed `.claude/obsidian.json`
(`folder` and `templates` keys, each possibly absent). -/
structure ProjectConfig where
  folder : Option String
  templates : Option (List (String × String))
deriving DecidableEq, Repr

/-- The built-in `"report"` template of `_get_project_config`'s default. -/
def defaultReportTemplate : String :=
  "## {title}\n\n**Generated:** {timestamp}\n**Project:** {project}\n\n{content}"

/-- The built-in `"review"` template of `_get_project_config`'s default. -/
def defaultReviewTemplate : String :=
  "## Code Review: {title}\n\n**Generated:** {timestamp}\n**Project:** {project}\n\n{content}"

/-- The default configuration literal of `_get_project_config` (both the
no-config-found return and the `except` fallback are this same value). -/
def defaultConfig : ProjectConfig :=
  { folder := some "Claude Code"
    templates := some [("report", defaultReportTemplate), ("review", defaultReviewTemplate)] }

/-- One directory on the walk from `Path.cwd()` up through its parents:
`none` when `path / ".claude" / "obsidian.json"` does not exist, otherwise
the outcome of `json.load` on it (`Except.error` = parse failure). -/
abbrev ConfigDir := Option (Except Unit ProjectConfig)

/-- Model of `_get_project_config`: scan `[cwd] + parents` for the first existing
`.claude/obsidian.json`; return its parsed contents, or the default when
none exists; a `json.load` failure raises into the `except` clause, which
also returns the default (later ancestors are *not* consulted). -/
def getProjectConfig (dirs : List ConfigDir) : ProjectConfig :=
  match dirs.findSome? id with
  | some (Except.ok c) => c
  | some (Except.error _) => defaultConfig
  | none => defaultConfig

/-- A parsed `str.format` template: literal characters and `{name}`
replacement fields. -/
inductive Tok where
  | lit : Char → Tok
  | field : String → Tok
deriving DecidableEq, Repr

/-- Failures of `str.format`: a missing keyword (Python `KeyError`) or a
malformed template (Python `ValueError`). -/
inductive FormatError where
  | keyError : String → FormatError
  | valueError : String → FormatError
deriving DecidableEq, Repr

/-- Substitute parsed `str.format` tokens with keyword arguments; an
unknown field name raises `KeyError`, exactly as Python's `str.format`
does (numeric/auto fields and format specs are not modelled — the
templates here use only plain named fields). -/
def renderToks (vars : List (String × String)) : List Tok → Except FormatError (List Char)
  | [] => Except.ok []
  | Tok.lit c :: ts => (renderToks vars ts).map (c :: ·)
  | Tok.field n :: ts =>
    match vars.lookup n with
    | some v => (renderToks vars ts).map (v.data ++ ·)
    | none => Except.error (FormatError.keyError n)

/-- Parse a `str.format` template: `{{`/`}}` are literal braces, `{name}`
is a field, a lone brace is a `ValueError` (fuel-driven; `pyFormat` always
supplies enough). -/
def parseToksFuel (fuel : Nat) (cs : List Char) : Except FormatError (List Tok) :=
  match fuel, cs with
  | 0, _ => Except.error (FormatError.valueError "out of fuel")
  | _ + 1, [] => Except.ok []
  | fuel + 1, c :: cs =>
    if c = '\x7b' then
      match cs with
      | '\x7b' :: rest => (parseToksFuel fuel rest).map (Tok.lit '\x7b' :: ·)
      | _ =>
        let nm := cs.takeWhile (· ≠ '\x7d')
        match cs.dropWhile (· ≠ '\x7d') with
        | '\x7d' :: rest => (parseToksFuel fuel rest).map (Tok.field (String.mk nm) :: ·)
        | _ => Except.error (FormatError.valueError "Single \x7b encountered in format string")
    else if c = '\x7d' then
      match cs with
      | '\x7d' :: rest => (parseToksFuel fuel rest).map (Tok.lit '\x7d' :: ·)
      | _ => Except.error (FormatError.valueError "Single \x7d encountered in format string")
    else
      (parseToksFuel fuel cs).map (Tok.lit c :: ·)

/-- Python `template.format(**vars)`. -/
def pyFormat (template : String) (vars : List (String × String)) : Except FormatError String :=
  match parseToksFuel (template.data.length + 1) template.data with
  | Except.error e => Except.error e
  | Except.ok toks => (renderToks vars toks).map String.mk

/-- The keyword arguments passed by `_save_to_obsidian` to `template.format`. -/
def stdVars (title timestamp project content : String) : List (String × String) :=
  [("title", title), ("timestamp", timestamp), ("project", project), ("content", content)]

/-- Python's `f"{tags}"` rendering of a list of strings: `repr` with
single-quoted elements, order kept, duplicates kept (escaping inside the
strings is not modelled; tag text here never contains quotes). -/
def pyListRepr (tags : List String) : String :=
  "[" ++ joinSep ", " (tags.map fun t => "\x27" ++ t ++ "\x27") ++ "]"

/-- Model of `_generate_frontmatter`: the YAML block prepended to every note. -/
def generateFrontmatter (tags : List String) (now : PyDateTime) : String :=
  "---\n" ++ ("created: " ++ isoFmt now ++ "\n") ++ "source: claude-code\n" ++
    ("tags: " ++ pyListRepr tags ++ "\n") ++ "---\n\n"

/-- A directory entry as seen by `Path.iterdir()`: a subdirectory with its
children, or a plain file. -/
inductive FsEntry where
  | dir : String → List FsEntry → FsEntry
  | file : String → FsEntry

/-- The entry's name (`item.name`). -/
def FsEntry.nameOf : FsEntry → String
  | FsEntry.dir n _ => n
  | FsEntry.file n => n

/-- Python `p.is_dir()`. -/
def FsEntry.isDir : FsEntry → Bool
  | FsEntry.dir _ _ => true
  | FsEntry.file _ => false

/-- Python `Path(nm).suffix`: the extension from the last dot of the
name, empty when there is no dot or the dot is the leading character. -/
def pySuffix (nm : String) : String :=
  let cs := nm.data
  let extRev := cs.reverse.takeWhile (· ≠ '.')
  if extRev.length = cs.length then ""
  else if cs.length = extRev.length + 1 then ""
  else String.mk ('.' :: extRev.reverse)

/-- Lexicographic code-point comparison of character lists — the order
Python uses to compare strings (equal lists compare `≤`). -/
def listCharLe : List Char → List Char → Bool
  | [], _ => true
  | _ :: _, [] => false
  | a :: as, b :: bs =>
    if a.toNat < b.toNat then true
    else if b.toNat < a.toNat then false
    else listCharLe as bs

theorem listCharLe_total : ∀ as bs, listCharLe as bs = true ∨ listCharLe bs as = true
  | [], _ => Or.inl rfl
  | _ :: _, [] => Or.inr rfl
  | a :: as, b :: bs => by
    simp only [listCharLe]
    rcases Nat.lt_trichotomy a.toNat b.toNat with h | h | h
    · left; simp [h]
    · have h1 : ¬ a.toNat < b.toNat := by omega
      have h2 : ¬ b.toNat < a.toNat := by omega
      simpa [h1, h2] using listCharLe_total as bs
    · right; simp [h]

theorem listCharLe_trans :
    ∀ as bs cs, listCharLe as bs = true → listCharLe bs cs = true → listCharLe as cs = true
  | [], _, _, _, _ => rfl
  | a :: as, b :: bs, c :: cs, hab, hbc => by
    simp only [listCharLe] at hab hbc ⊢
    by_cases h1 : a.toNat < b.toNat
    · by_cases h2 : b.toNat < c.toNat
      · have h : a.toNat < c.toNat := by omega
        rw [if_pos h]
      · rw [if_neg h2] at hbc
        by_cases h3 : c.toNat < b.toNat
        · rw [if_pos h3] at hbc; simp at hbc
        · have h : a.toNat < c.toNat := by omega
          rw [if_pos h]
    · rw [if_neg h1] at hab
      by_cases h3 : b.toNat < a.toNat
      · rw [if_pos h3] at hab; simp at hab
      · rw [if_neg h3] at hab
        by_cases h2 : b.toNat < c.toNat
        · have h : a.toNat < c.toNat := by omega
          rw [if_pos h]
        · rw [if_neg h2] at hbc
          by_cases h4 : c.toNat < b.toNat
          · rw [if_pos h4] at hbc; simp at hbc
          · rw [if_neg h4] at hbc
            have h5 : ¬ a.toNat < c.toNat := by omega
            have h6 : ¬ c.toNat < a.toNat := by omega
            rw [if_neg h5, if_neg h6]
            exact listCharLe_trans as bs cs hab hbc
  | _ :: _, [], _, hab, _ => by simp [listCharLe] at hab
  | _ :: _, _ :: _, [], _, hbc => by simp [listCharLe] at hbc

/-- Ordering of sibling paths used by Python's `sorted` on `Path` values:
lexicographic code-point comparison of the entry names (the shared parent
path prefixes are equal, so they never decide the comparison). -/
def nameLe (a b : FsEntry) : Prop :=
  listCharLe a.nameOf.data b.nameOf.data = true

instance : DecidableRel nameLe :=
  fun a b => inferInstanceAs (Decidable (listCharLe a.nameOf.data b.nameOf.data = true))

instance : IsTotal FsEntry nameLe :=
  ⟨fun a b => listCharLe_total a.nameOf.data b.nameOf.data⟩

instance : IsTrans FsEntry nameLe :=
  ⟨fun _ b _ hab hbc => listCharLe_trans _ b.nameOf.data _ hab hbc⟩

/-- Model of `sorted([p for p in path.iterdir() if p.is_dir() or p.suffix == ".md"])`
(insertion sort is stable, like Python's `sorted`, so it computes the
same list). -/
def pyItems (entries : List FsEntry) : List FsEntry :=
  List.insertionSort nameLe (entries.filter fun p => p.isDir || pySuffix p.nameOf == ".md")

/-- The `for i, item in enumerate(items)` loop body of `build_tree`:
`is_last = i == len(items) - 1` is `rest.isEmpty`; `recurse` performs the
recursive `build_tree(item, current_depth + 1, next_prefix)` call. -/
def treeGoList (recurse : FsEntry → String → String) (indent : String) : List FsEntry → String
  | [] => ""
  | item :: rest =>
    let isLast := rest.isEmpty
    let mark := if isLast then "└── " else "├── "
    let sub := recurse item (indent ++ (if isLast then "    " else "│   "))
    indent ++ mark ++ item.nameOf ++ "\n" ++ sub ++ treeGoList recurse indent rest

/-- Model of `build_tree(path, current_depth, prefix)` on a directory's
children: descends only while `current_depth < max_depth`, exactly as the
source (`fuel` only discharges termination; every call made by
`buildTree` has `fuel > maxD - d`, so the fuel clause never fires). -/
def treeGo : Nat → Nat → Nat → String → List FsEntry → String
  | 0, _, _, _, _ => ""
  | fuel + 1, maxD, d, indent, items =>
    treeGoList
      (fun item subIndent =>
        match item with
        | FsEntry.dir _ cs => if d < maxD then treeGo fuel maxD (d + 1) subIndent (pyItems cs) else ""
        | FsEntry.file _ => "")
      indent items

/-- Model of `build_tree(vault_path, 0)`: the vault root is a directory
whose filtered, sorted children start at `current_depth = 0` with an
empty prefix (the `current_depth > max_depth` guard cannot fire since
depths stay between 0 and `max_depth`). -/
def buildTree (maxD : Nat) (root : List FsEntry) : String :=
  treeGo (maxD + 1) maxD 0 "" (pyItems root)

/-- One printed line of `build_tree`: the depth of the entry it names
(0 = direct child of the vault root, the source's `current_depth`), its
indentation prefix, its branch marker, and the entry name. -/
structure TreeLine where
  depth : Nat
  ind : String
  mark : String
  nm : String
deriving DecidableEq, Repr

/-- Specification companion of `treeGoList`, recording lines structurally
instead of concatenating text. -/
def treeLinesList (recurse : FsEntry → String → List TreeLine) (d : Nat) (indent : String) :
    List FsEntry → List TreeLine
  | [] => []
  | item :: rest =>
    let isLast := rest.isEmpty
    let mark := if isLast then "└── " else "├── "
    { depth := d, ind := indent, mark := mark, nm := item.nameOf } ::
      (recurse item (indent ++ (if isLast then "    " else "│   ")) ++
        treeLinesList recurse d indent rest)

/-- Specification companion of `treeGo`: the list of lines it prints. -/
def treeLines : Nat → Nat → Nat → String → List FsEntry → List TreeLine
  | 0, _, _, _, _ => []
  | fuel + 1, maxD, d, indent, items =>
    treeLinesList
      (fun item subIndent =>
        match item with
        | FsEntry.dir _ cs => if d < maxD then treeLines fuel maxD (d + 1) subIndent (pyItems cs) else []
        | FsEntry.file _ => [])
      d indent items

/-- Render recorded tree lines back to the text `build_tree` produces. -/
def renderLines : List TreeLine → String
  | [] => ""
  | l :: ls => l.ind ++ l.mark ++ l.nm ++ "\n" ++ renderLines ls

/-- Model of `search_path.rglob("*.md")` under prefix `pre`: relative
segment paths of all `.md` files, in traversal order. -/
def rglobMd (pre : List String) : List FsEntry → List (List String)
  | [] => []
  | FsEntry.file n :: rest =>
    (if strEndsWith n ".md" then [pre ++ [n]] else []) ++ rglobMd pre rest
  | FsEntry.dir n cs :: rest => rglobMd (pre ++ [n]) cs ++ rglobMd pre rest

/-- Resolve a folder path to the children list of the named subdirectory
(`none` when no such directory exists). -/
def findDir (entries : List FsEntry) : List String → Option (List FsEntry)
  | [] => some entries
  | seg :: rest =>
    match entries.findSome? (fun e =>
        match e with
        | FsEntry.dir n cs => if n = seg then some cs else none
        | FsEntry.file _ => none) with
    | some cs => findDir cs rest
    | none => none

/-- An MCP `CallToolResult`: the text contents and the `isError` flag. -/
structure CallToolResult where
  texts : List String
  isError : Bool
deriving DecidableEq, Repr

/-- The server's ambient state: the vault path (as a string and as a
name), the vault's files (newest write first) and directory view, the
working directory's name, the `.claude/obsidian.json` search path from
`Path.cwd()` upward, and the current time. -/
structure Env where
  vaultRootStr : String
  vaultName : String
  vault : List (List String × String)
  tree : List FsEntry
  cwdName : String
  ancestors : List ConfigDir
  now : PyDateTime

/-- Write (or overwrite) a file: the new entry shadows any older one
under `List.lookup`. -/
def writeFile (fs : List (List String × String)) (p : List String) (text : String) :
    List (List String × String) :=
  (p, text) :: fs

/-- Python f-string interpolation of a possibly-`None` argument. -/
def pyArgStr : Option String → String
  | none => "None"
  | some s => s

/-- Model of `_save_claude_response(content, filename, tags)`: append
`.md` unless already present, prepend the front matter, write at
`vault_path / filename`; a `None` filename or content raises before the
write (modelled error text abbreviates the Python `TypeError` message). -/
def saveClaudeResponse (env : Env) (content fname : Option String) (tags : List String) :
    Except String (CallToolResult × Env) :=
  match fname with
  | none => Except.error "Failed to save response: NoneType object has no attribute endswith"
  | some fname0 =>
    let fn := if strEndsWith fname0 ".md" then fname0 else fname0 ++ ".md"
    match content with
    | none => Except.error "Failed to save response: can only concatenate str to str"
    | some c =>
      let fm := generateFrontmatter tags env.now
      let full := fm ++ c
      Except.ok
        ({ texts := ["Successfully saved response to " ++ env.vaultRootStr ++ "/" ++ fn],
           isError := false },
         { env with vault := writeFile env.vault (pathSegsOf fn) full })

/-- Model of `_list_vault_files(folder, limit)`: recursively collect
`.md` files under `vault_path / folder`, stopping at `limit`; a missing
folder is an ordinary "not found" text result. -/
def listVaultFiles (env : Env) (folder : String) (limit : Nat) :
    Except String (CallToolResult × Env) :=
  let segs := if folder = "" then [] else pathSegsOf folder
  match findDir env.tree segs with
  | none =>
    Except.ok
      ({ texts := ["Folder not found: " ++ env.vaultRootStr ++
          (if folder = "" then "" else "/" ++ folder)], isError := false }, env)
  | some entries =>
    let files := ((rglobMd segs entries).take limit).map (joinSep "/")
    let filesText := if files.isEmpty then "No markdown files found" else joinSep "\n" files
    Except.ok
      ({ texts := ["Files in vault (" ++ padNum 0 files.length ++ " found):\n" ++ filesText],
         isError := false }, env)

/-- Model of `_get_vault_structure(max_depth)`. -/
def getVaultStructure (env : Env) (maxDepth : Nat) : Except String (CallToolResult × Env) :=
  Except.ok
    ({ texts := ["Vault structure:\n" ++ env.vaultName ++ "/\n" ++ buildTree maxDepth env.tree],
       isError := false }, env)

/-- Python `str(e)` for the modelled `str.format` failures (`KeyError`
prints its key quoted). -/
def formatErrorMsg : FormatError → String
  | FormatError.keyError n => "\x27" ++ n ++ "\x27"
  | FormatError.valueError m => m

/-- Model of `_save_to_obsidian(content, title, content_type, tags)`:
resolve the project config, render the selected template (missing type
falls back to the passthrough `"{content}"`), derive the sanitized
timestamped filename, and write under the configured folder. `None`
title raises at the sanitizing join; `None` content renders as `"None"`.
All raises are wrapped as `Failed to save to Obsidian: ...`. -/
def saveToObsidian (env : Env) (content title : Option String) (ctype : String)
    (tags : List String) : Except String (CallToolResult × Env) :=
  let config := getProjectConfig env.ancestors
  let projectName := env.cwdName
  let timestamp := fmtDashTime env.now
  let template := ((config.templates.getD []).lookup ctype).getD "{content}"
  match pyFormat template (stdVars (pyArgStr title) timestamp projectName (pyArgStr content)) with
  | Except.error e => Except.error ("Failed to save to Obsidian: " ++ formatErrorMsg e)
  | Except.ok formatted =>
    match title with
    | none => Except.error "Failed to save to Obsidian: argument of type NoneType is not iterable"
    | some title0 =>
      let filename := deriveFilename title0 env.now
      let projectFolder := config.folder.getD "Claude Code"
      let filePath := pathSegsOf projectFolder ++ [filename]
      let allTags := ["claude-code", ctype, lowerStr projectName] ++ tags
      let fm := generateFrontmatter allTags env.now
      let full := fm ++ formatted
      Except.ok
        ({ texts := ["Successfully saved " ++ ctype ++ " \x27" ++ title0 ++ "\x27 to " ++
            env.vaultRootStr ++ "/" ++ projectFolder ++ "/" ++ filename ++
            "\nProject: " ++ projectName ++ "\nFolder: " ++ projectFolder],
           isError := false },
         { env with vault := writeFile env.vault filePath full })

/-- The arguments mapping of a tool call (`request.params.arguments`);
`none` models an absent key. `fname` is the JSON key `"filename"`,
`ctype` the JSON key `"type"`. -/
structure ToolArgs where
  content : Option String := none
  fname : Option String := none
  title : Option String := none
  ctype : Option String := none
  tags : Option (List String) := none
  folder : Option String := none
  limit : Option Nat := none
  maxDepth : Option Nat := none

/-- A tool invocation: `request.params.name` and its arguments. -/
structure ToolRequest where
  name : String
  args : ToolArgs

/-- The dispatch chain inside `handle_call_tool`'s `try` block, including
the `raise ValueError(f"Unknown tool: ...")` arm. -/
def dispatch (req : ToolRequest) (env : Env) : Except String (CallToolResult × Env) :=
  if req.name = "save_claude_response" then
    saveClaudeResponse env req.args.content req.args.fname (req.args.tags.getD ["claude-code"])
  else if req.name = "list_vault_files" then
    listVaultFiles env (req.args.folder.getD "") (req.args.limit.getD 50)
  else if req.name = "get_vault_structure" then
    getVaultStructure env (req.args.maxDepth.getD 3)
  else if req.name = "save_to_obsidian" then
    saveToObsidian env req.args.content req.args.title (req.args.ctype.getD "note")
      (req.args.tags.getD [])
  else Except.error ("Unknown tool: " ++ req.name)

/-- Model of `handle_call_tool`: any exception from the dispatch becomes
a `CallToolResult` with `isError = True` and text `Error: ...` — the
function is total, so no tool error escapes to the caller. -/
def handleCallTool (req : ToolRequest) (env : Env) : CallToolResult × Env :=
  match dispatch req env with
  | Except.ok r => r
  | Except.error e => ({ texts := ["Error: " ++ e], isError := true }, env)

/-- The request-response loop: one result per request, state threaded
through. -/
def serve : List ToolRequest → Env → List CallToolResult × Env
  | [], env => ([], env)
  | req :: reqs, env =>
    let re := handleCallTool req env
    let rest := serve reqs re.2
    (re.1 :: rest.1, rest.2)

/-- Failure modes of the vault-URL resolver, from the spec's error
taxonomy: wrong scheme, missing/empty `file` parameter, missing file. -/
inductive UrlError where
  | invalidUrl
  | missingParam
  | notFound
deriving DecidableEq, Repr

/-- Hexadecimal digit value of a character, if any. -/
def hexVal (c : Char) : Option Nat :=
  if '0' ≤ c ∧ c ≤ '9' then some (c.toNat - 48)
  else if 'A' ≤ c ∧ c ≤ 'F' then some (c.toNat - 55)
  else if 'a' ≤ c ∧ c ≤ 'f' then some (c.toNat - 87)
  else none

/-- Percent-decode a character list: `%XY` with hex digits becomes the
character with that code (multi-byte UTF-8 sequences are not modelled;
the claims use ASCII data). -/
def percentDecodeList : List Char → List Char
  | '%' :: h1 :: h2 :: rest =>
    (match hexVal h1, hexVal h2 with
     | some a, some b => Char.ofNat (16 * a + b) :: percentDecodeList rest
     | _, _ => '%' :: percentDecodeList (h1 :: h2 :: rest))
  | c :: rest => c :: percentDecodeList rest
  | [] => []

/-- Percent-decode a string. -/
def percentDecode (s : String) : String :=
  String.mk (percentDecodeList s.data)

/-- Modelled from the spec: query-string parsing as `urllib.parse.parse_qs`
does it — split on `&`, then on the first `=`; pairs without `=` or with
an empty value are dropped (so an empty `file=` reads as absent). -/
def parseQueryPairs (query : String) : List (String × String) :=
  (splitStr '&' query).filterMap fun kv =>
    match splitStr '=' kv with
    | [] => none
    | [_] => none
    | k :: vs =>
      let v := joinSep "=" vs
      if v = "" then none else some (k, v)

/-- Modelled from the spec: the URL parsing step of the `read_obsidian_url`
tool, which is absent from `src/` (the spec's §4.6 Vault URL Resolver and
§6 tool catalogue describe it; only this one server variant was provided).
Fail with `invalidUrl` unless the scheme is the vault scheme `obsidian`;
the query is everything after the first `?`. -/
def parseVaultUrl (url : String) : Except UrlError (List (String × String)) :=
  let pre := "obsidian://".data
  if url.data.take pre.length = pre then
    match (splitOnCharList '?' (url.data.drop pre.length)).map String.mk with
    | [] => Except.ok []
    | [_] => Except.ok []
    | _ :: qs => Except.ok (parseQueryPairs (joinSep "?" qs))
  else Except.error UrlError.invalidUrl

/-- Default the extension of the final path segment to `.md` when it has
none (`if the resulting path has no extension, append ".md"`). -/
def mdDefaulted (segs : List String) : List String :=
  match segs.getLast? with
  | none => segs
  | some last => if pySuffix last = "" then segs.dropLast ++ [last ++ ".md"] else segs

/-- Modelled from the spec: resolution of parsed query parameters by the
`read_obsidian_url` tool (absent from `src/`): require a `file`
parameter, percent-decode it, split on `/` beneath the vault root,
default the extension to `.md`, then read; returns the vault name, the
path relative to the root, the absolute path, and the file text. -/
def resolveParams (root : List String) (fs : List (List String × String))
    (params : List (String × String)) : Except UrlError (String × List String × List String × String) :=
  match params.lookup "file" with
  | none => Except.error UrlError.missingParam
  | some fileRaw =>
    let segs := mdDefaulted (pathSegsOf (percentDecode fileRaw))
    match fs.lookup segs with
    | none => Except.error UrlError.notFound
    | some text => Except.ok ((params.lookup "vault").getD "", segs, root ++ segs, text)

/-- Modelled from the spec: `resolveUrl(url, vaultRoot)` — the complete
`read_obsidian_url` pipeline (absent from `src/`). -/
def resolveUrl (url : String) (root : List String) (fs : List (List String × String)) :
    Except UrlError (String × List String × List String × String) :=
  match parseVaultUrl url with
  | Except.error e => Except.error e
  | Except.ok params => resolveParams root fs params

/-- A substring test: does `cs` lead with `sub`? -/
def leadsWith : List Char → List Char → Bool
  | _, [] => true
  | [], _ :: _ => false
  | c :: cs, d :: ds => c == d && leadsWith cs ds

/-- A substring occurs somewhere in `cs`. -/
def containsSub : List Char → List Char → Bool
  | [], sub => sub.isEmpty
  | c :: cs, sub => leadsWith (c :: cs) sub || containsSub cs sub

/-- Python `sub in s`. -/
def strContains (s sub : String) : Bool :=
  containsSub s.data sub.data

/-- A concrete environment used to instantiate universally quantified
theorems at witness inputs. -/
def sampleEnv : Env :=
  { vaultRootStr := "/home/u/vault"
    vaultName := "vault"
    vault := []
    tree := []
    cwdName := "proj"
    ancestors := []
    now := { year := 2024, month := 1, day := 2, hour := 3, minute := 4, second := 5 } }

theorem decDigit_isDigit (d : Nat) : (decDigit d).isDigit = true := by
  unfold decDigit
  split <;> decide

theorem natDigsFuel_digits :
    ∀ (fuel n : Nat), ∀ c ∈ natDigsFuel fuel n, c.isDigit = true := by
  intro fuel
  induction fuel with
  | zero => intro n c hc; simp [natDigsFuel] at hc
  | succ fuel ih =>
    intro n c hc
    simp only [natDigsFuel] at hc
    split at hc
    · simp at hc
      subst hc
      exact decDigit_isDigit n
    · rcases List.mem_append.mp hc with h | h
      · exact ih _ _ h
      · simp at h
        subst h
        exact decDigit_isDigit _

theorem isDigit_isSafe {c : Char} (h : c.isDigit = true) : isSafeChar c = true := by
  simp [isSafeChar, Char.isAlphanum, h]

theorem padNum_safe (w n : Nat) : ∀ c ∈ (padNum w n).data, isSafeChar c = true := by
  intro c hc
  simp only [padNum] at hc
  rcases List.mem_append.mp hc with h | h
  · have := List.eq_of_mem_replicate h
    subst this
    decide
  · exact isDigit_isSafe (natDigsFuel_digits _ _ _ h)

theorem append_safe {s t : String} (hs : ∀ c ∈ s.data, isSafeChar c = true)
    (ht : ∀ c ∈ t.data, isSafeChar c = true) : ∀ c ∈ (s ++ t).data, isSafeChar c = true := by
  intro c hc
  rw [String.data_append] at hc
  rcases List.mem_append.mp hc with h | h
  · exact hs c h
  · exact ht c h

theorem fmtYmdHMS_safe (t : PyDateTime) : ∀ c ∈ (fmtYmdHMS t).data, isSafeChar c = true :=
  append_safe (append_safe (append_safe (append_safe (append_safe
    (append_safe (padNum_safe 4 t.year) (padNum_safe 2 t.month)) (padNum_safe 2 t.day))
      (by decide)) (padNum_safe 2 t.hour)) (padNum_safe 2 t.minute)) (padNum_safe 2 t.second)

theorem rstripChars_subset {cs : List Char} {c : Char} (h : c ∈ rstripChars cs) : c ∈ cs := by
  simp only [rstripChars, List.mem_reverse] at h
  exact List.mem_reverse.mp ((List.dropWhile_sublist _).mem h)

theorem safeTitleOf_safe (title : String) : ∀ c ∈ (safeTitleOf title).data, isSafeChar c = true := by
  intro c hc
  simp only [safeTitleOf] at hc
  exact (List.mem_filter.mp (rstripChars_subset hc)).2

theorem strEndsWith_append (s t : String) : strEndsWith (s ++ t) t = true := by
  simp only [strEndsWith, listEndsWith, String.data_append]
  have h1 : t.data.length ≤ (s.data ++ t.data).length := by
    simp [List.length_append]
  have h2 : (s.data ++ t.data).length - t.data.length = s.data.length := by
    simp [List.length_append]
  rw [h2]
  simp [h1, List.drop_left]

/-- C4 counterexample: the claim "no character outside the safe set
appears in the derived filename" fails — the `.` of the mandatory `.md`
extension is not alphanumeric, space, hyphen, or underscore, and it
appears in the filename derived from the claim's own example title. -/
theorem c4_dot_outside_safe_set :
    '.' ∈ (deriveFilename "Report: Q1/2024"
      { year := 2024, month := 1, day := 2, hour := 3, minute := 4, second := 5 }).data ∧
    isSafeChar '.' = false := by
  decide

/-- C4 (amended): the derived filename is exactly the `YYYYMMDD_HHMMSS`
timestamp, an underscore, the sanitized stem (exactly the title's
alphanumeric/space/hyphen/underscore characters, trailing whitespace
trimmed), and the `.md` extension; every character before the trailing
`.md` lies in the safe set (the `.` of the extension being the sole
character outside it), and the example title `"Report: Q1/2024"`
sanitizes to `"Report Q12024"`. -/
theorem c4_filename_derivation (title : String) (now : PyDateTime) :
    deriveFilename title now = fmtYmdHMS now ++ "_" ++ safeTitleOf title ++ ".md"
    ∧ (safeTitleOf title).data = rstripChars (title.data.filter isSafeChar)
    ∧ (∀ c ∈ (fmtYmdHMS now ++ "_" ++ safeTitleOf title).data, isSafeChar c = true)
    ∧ strEndsWith (deriveFilename title now) ".md" = true
    ∧ safeTitleOf "Report: Q1/2024" = "Report Q12024" := by
  refine ⟨rfl, rfl, ?_, ?_, by decide⟩
  · exact append_safe (append_safe (fmtYmdHMS_safe now) (by decide)) (safeTitleOf_safe title)
  · exact strEndsWith_append (fmtYmdHMS now ++ "_" ++ safeTitleOf title) ".md"

/-- C4 witness: the amended theorem instantiated at the example title and
a fixed clock. -/
theorem c4_filename_derivation_witness :
    isSafeChar '2' = true ∧
    strEndsWith (deriveFilename "Report: Q1/2024"
      { year := 2024, month := 1, day := 2, hour := 3, minute := 4, second := 5 }) ".md" = true :=
  ⟨(c4_filename_derivation "Report: Q1/2024"
      { year := 2024, month := 1, day := 2, hour := 3, minute := 4, second := 5 }).2.2.1
      '2' (by decide),
   (c4_filename_derivation "Report: Q1/2024"
      { year := 2024, month := 1, day := 2, hour := 3, minute := 4, second := 5 }).2.2.2.1⟩

/-- C6 counterexample: the built-in default configuration has no
`"note"` template — its templates mapping holds `report` and `review`
only, so it does not contain built-in strings "for all three content
types report, review, and note". -/
theorem c6_note_template_missing :
    (defaultConfig.templates.getD []).lookup "note" = none ∧
    getProjectConfig [] = defaultConfig :=
  ⟨rfl, rfl⟩

/-- C6 (amended): the default configuration returned when no project
configuration file is found (or the found one fails to parse) has the
fixed folder literal `"Claude Code"` and built-in templates for the two
content types `report` and `review` — but none for `note`, which
therefore falls back to the passthrough template — and each built-in
template uses all four `{title}`/`{timestamp}`/`{project}`/`{content}`
placeholders. -/
theorem c6_default_config :
    getProjectConfig [] = defaultConfig
    ∧ getProjectConfig [some (Except.error ())] = defaultConfig
    ∧ defaultConfig.folder = some "Claude Code"
    ∧ (defaultConfig.templates.getD []).lookup "report" = some defaultReportTemplate
    ∧ (defaultConfig.templates.getD []).lookup "review" = some defaultReviewTemplate
    ∧ (defaultConfig.templates.getD []).lookup "note" = none
    ∧ strContains defaultReportTemplate "{title}" = true
    ∧ strContains defaultReportTemplate "{timestamp}" = true
    ∧ strContains defaultReportTemplate "{project}" = true
    ∧ strContains defaultReportTemplate "{content}" = true
    ∧ strContains defaultReviewTemplate "{title}" = true
    ∧ strContains defaultReviewTemplate "{timestamp}" = true
    ∧ strContains defaultReviewTemplate "{project}" = true
    ∧ strContains defaultReviewTemplate "{content}" = true := by
  refine ⟨rfl, rfl, rfl, rfl, rfl, rfl, ?_, ?_, ?_, ?_, ?_, ?_, ?_, ?_⟩ <;> decide

theorem stdVars_lookup_unknown (n t ts p c : String)
    (h : n ∉ (["title", "timestamp", "project", "content"] : List String)) :
    (stdVars t ts p c).lookup n = none := by
  simp only [List.mem_cons, List.not_mem_nil, or_false, not_or] at h
  obtain ⟨h1, h2, h3, h4⟩ := h
  have e1 : (n == "title") = false := by simp [h1]
  have e2 : (n == "timestamp") = false := by simp [h2]
  have e3 : (n == "project") = false := by simp [h3]
  have e4 : (n == "content") = false := by simp [h4]
  simp [stdVars, List.lookup, e1, e2, e3, e4]

theorem stdVars_lookup_known (n t ts p c : String)
    (h : n ∈ (["title", "timestamp", "project", "content"] : List String)) :
    (stdVars t ts p c).lookup n ≠ none := by
  simp only [List.mem_cons, List.not_mem_nil, or_false] at h
  rcases h with h | h | h | h <;> subst h <;> simp [stdVars, List.lookup]

theorem renderToks_unknown_field :
    ∀ (toks : List Tok) (f t ts p c : String),
      Tok.field f ∈ toks →
      f ∉ (["title", "timestamp", "project", "content"] : List String) →
      ∃ g, renderToks (stdVars t ts p c) toks = Except.error (FormatError.keyError g) ∧
        g ∉ (["title", "timestamp", "project", "content"] : List String) := by
  intro toks
  induction toks with
  | nil => intro f t ts p c hmem _; exact absurd hmem (List.not_mem_nil _)
  | cons tok toks ih =>
    intro f t ts p c hmem hf
    cases tok with
    | lit ch =>
      have hmem' : Tok.field f ∈ toks := by
        rcases List.mem_cons.mp hmem with h | h
        · exact absurd h (by simp)
        · exact h
      obtain ⟨g, hg, hg2⟩ := ih f t ts p c hmem' hf
      exact ⟨g, by simp [renderToks, hg, Except.map], hg2⟩
    | field nm =>
      cases hl : (stdVars t ts p c).lookup nm with
      | none =>
        refine ⟨nm, by simp [renderToks, hl], fun hmemnm => ?_⟩
        exact stdVars_lookup_known nm t ts p c hmemnm hl
      | some v =>
        have hnm : nm ∈ (["title", "timestamp", "project", "content"] : List String) := by
          by_contra hnot
          rw [stdVars_lookup_unknown nm t ts p c hnot] at hl
          exact Option.noConfusion hl
        have hmem' : Tok.field f ∈ toks := by
          rcases List.mem_cons.mp hmem with h | h
          · injection h with h
            subst h
            exact absurd hnm hf
          · exact h
        obtain ⟨g, hg, hg2⟩ := ih f t ts p c hmem' hf
        exact ⟨g, by simp [renderToks, hl, hg, Except.map], hg2⟩

/-- C7 counterexample: rendering the template `"{foo}"` with the four
recognized variables does not leave the unknown placeholder verbatim in
the output — Python's `str.format` raises `KeyError: 'foo'`, which the
model reproduces. -/
theorem c7_format_not_verbatim :
    pyFormat "{foo}" (stdVars "t" "ts" "p" "c") = Except.error (FormatError.keyError "foo") ∧
    pyFormat "{foo}" (stdVars "t" "ts" "p" "c") ≠ Except.ok "{foo}" := by
  have he : pyFormat "{foo}" (stdVars "t" "ts" "p" "c") =
      Except.error (FormatError.keyError "foo") := rfl
  refine ⟨he, fun h => ?_⟩
  rw [he] at h
  exact Except.noConfusion h

/-- C7 (amended): for every template containing a placeholder whose name
is not one of title, timestamp, project, content, rendering the template
fails with a `KeyError` naming some unknown placeholder (Python
`str.format` semantics), rather than leaving the placeholder verbatim:
stated for parsed token lists and lifted to `pyFormat` on strings. -/
theorem c7_unknown_placeholder_raises :
    (∀ (toks : List Tok) (f t ts p c : String),
       Tok.field f ∈ toks →
       f ∉ (["title", "timestamp", "project", "content"] : List String) →
       ∃ g, renderToks (stdVars t ts p c) toks = Except.error (FormatError.keyError g) ∧
         g ∉ (["title", "timestamp", "project", "content"] : List String))
    ∧ (∀ (s : String) (toks : List Tok) (f t ts p c : String),
       parseToksFuel (s.data.length + 1) s.data = Except.ok toks →
       Tok.field f ∈ toks →
       f ∉ (["title", "timestamp", "project", "content"] : List String) →
       ∃ g, pyFormat s (stdVars t ts p c) = Except.error (FormatError.keyError g)) := by
  refine ⟨renderToks_unknown_field, ?_⟩
  intro s toks f t ts p c hparse hmem hf
  obtain ⟨g, hg, _⟩ := renderToks_unknown_field toks f t ts p c hmem hf
  refine ⟨g, ?_⟩
  simp only [pyFormat, hparse, hg]
  rfl

/-- C7 witness: the amended theorem applied to the one-field template
`{foo}`. -/
theorem c7_unknown_placeholder_raises_witness :
    ∃ g, renderToks (stdVars "a" "b" "c" "d") [Tok.field "foo"] =
        Except.error (FormatError.keyError g) ∧
      g ∉ (["title", "timestamp", "project", "content"] : List String) :=
  c7_unknown_placeholder_raises.1 [Tok.field "foo"] "foo" "a" "b" "c" "d"
    (by decide) (by decide)

theorem findSome?_id_append_nones {pre rest : List ConfigDir} (h : ∀ x ∈ pre, x = none) :
    (pre ++ rest).findSome? id = rest.findSome? id := by
  induction pre with
  | nil => rfl
  | cons a pre ih =>
    have ha : a = none := h a (List.mem_cons_self a pre)
    subst ha
    simpa [List.findSome?] using ih (fun x hx => h x (List.mem_cons_of_mem _ hx))

/-- C3: config resolution is a total function of the ancestor chain
(hence deterministic and non-raising); the nearest ancestor that contains
a `.claude/obsidian.json` wins, whatever farther ancestors hold; when the
nearest one fails to parse, or when no ancestor has one, the built-in
default is returned. -/
theorem c3_config_resolution :
    (∀ (pre post : List ConfigDir) (c : ProjectConfig),
       (∀ x ∈ pre, x = none) →
       getProjectConfig (pre ++ some (Except.ok c) :: post) = c)
    ∧ (∀ (pre post : List ConfigDir),
       (∀ x ∈ pre, x = none) →
       getProjectConfig (pre ++ some (Except.error ()) :: post) = defaultConfig)
    ∧ (∀ dirs : List ConfigDir, (∀ x ∈ dirs, x = none) →
       getProjectConfig dirs = defaultConfig) := by
  refine ⟨?_, ?_, ?_⟩
  · intro pre post c h
    unfold getProjectConfig
    rw [findSome?_id_append_nones h]
    simp [List.findSome?]
  · intro pre post h
    unfold getProjectConfig
    rw [findSome?_id_append_nones h]
    simp [List.findSome?]
  · intro dirs h
    unfold getProjectConfig
    have hd : dirs.findSome? id = ([] : List ConfigDir).findSome? id := by
      simpa using @findSome?_id_append_nones dirs [] h
    rw [hd]
    simp [List.findSome?]

/-- C3 witness: the working directory has no config file, the parent has
a parsing one, the grandparent has a corrupt one — the parent wins. -/
theorem c3_config_resolution_witness :
    getProjectConfig
        [none, some (Except.ok { folder := some "Projects/x", templates := some [] }),
          some (Except.error ())] =
      { folder := some "Projects/x", templates := some [] } :=
  c3_config_resolution.1 [none] [some (Except.error ())]
    { folder := some "Projects/x", templates := some [] }
    (fun _ hx => List.mem_singleton.mp hx)

/-- C5 (code bug): the handler performs no validation — a title that is
empty after trimming (here `" "`) is accepted: `save_to_obsidian`
returns a success result and writes the note `20240102_030405_.md`, and
a missing (`None`) content is likewise accepted, rendering the literal
text `None` into the saved note — although the tool's own `inputSchema`
declares `content` and `title` required and the spec makes non-emptiness
a validity invariant. -/
theorem c5_missing_validation_saves :
    saveToObsidian sampleEnv (some "X") (some " ") "note" [] =
      Except.ok
        ({ texts := ["Successfully saved note \x27 \x27 to /home/u/vault/Claude Code/20240102_030405_.md\nProject: proj\nFolder: Claude Code"],
           isError := false },
         { sampleEnv with vault := [(["Claude Code", "20240102_030405_.md"],
            "---\ncreated: 2024-01-02T03:04:05\nsource: claude-code\ntags: [\x27claude-code\x27, \x27note\x27, \x27proj\x27]\n---\n\nX")] })
    ∧ saveToObsidian sampleEnv none (some "T") "note" [] =
      Except.ok
        ({ texts := ["Successfully saved note \x27T\x27 to /home/u/vault/Claude Code/20240102_030405_T.md\nProject: proj\nFolder: Claude Code"],
           isError := false },
         { sampleEnv with vault := [(["Claude Code", "20240102_030405_T.md"],
            "---\ncreated: 2024-01-02T03:04:05\nsource: claude-code\ntags: [\x27claude-code\x27, \x27note\x27, \x27proj\x27]\n---\n\nNone")] }) :=
  ⟨rfl, rfl⟩

/-- C8: the generated front matter is exactly
`---`, `created: <ISO timestamp>`, `source: claude-code`,
`tags: <literal list>`, `---`, blank line — with the tag list rendered in
order, duplicates kept; and both save paths prepend this block verbatim
to the (opaque) body, never merging with front matter the body may
already contain. -/
theorem c8_frontmatter_exact :
    (∀ (tags : List String) (now : PyDateTime),
       generateFrontmatter tags now =
         "---\n" ++ "created: " ++ isoFmt now ++ "\n" ++ "source: claude-code\n" ++
           "tags: " ++ pyListRepr tags ++ "\n" ++ "---\n\n")
    ∧ (∀ (tags : List String),
       pyListRepr tags = "[" ++ joinSep ", " (tags.map fun t => "\x27" ++ t ++ "\x27") ++ "]")
    ∧ pyListRepr ["alpha", "beta", "alpha"] = "[\x27alpha\x27, \x27beta\x27, \x27alpha\x27]"
    ∧ (∀ (env : Env) (content fname : String) (tags : List String),
       saveClaudeResponse env (some content) (some fname) tags =
         Except.ok
           ({ texts := ["Successfully saved response to " ++ env.vaultRootStr ++ "/" ++
               (if strEndsWith fname ".md" then fname else fname ++ ".md")],
              isError := false },
            { env with vault :=
               (pathSegsOf (if strEndsWith fname ".md" then fname else fname ++ ".md"),
                generateFrontmatter tags env.now ++ content) :: env.vault }))
    ∧ (∀ (env : Env) (content title ctype : String) (tags : List String)
         (r : CallToolResult) (env2 : Env),
       saveToObsidian env (some content) (some title) ctype tags = Except.ok (r, env2) →
       ∃ body, env2.vault =
         (pathSegsOf ((getProjectConfig env.ancestors).folder.getD "Claude Code") ++
            [deriveFilename title env.now],
          generateFrontmatter (["claude-code", ctype, lowerStr env.cwdName] ++ tags) env.now
            ++ body) :: env.vault) := by
  refine ⟨?_, fun tags => rfl, rfl, fun env content fname tags => rfl, ?_⟩
  · intro tags now
    simp only [generateFrontmatter, String.append_assoc]
  · intro env content title ctype tags r env2 h
    simp only [saveToObsidian] at h
    cases hf : pyFormat
        ((((getProjectConfig env.ancestors).templates.getD []).lookup ctype).getD "{content}")
        (stdVars (pyArgStr (some title)) (fmtDashTime env.now) env.cwdName
          (pyArgStr (some content))) with
    | error e =>
      rw [hf] at h
      exact Except.noConfusion h
    | ok formatted =>
      rw [hf] at h
      injection h with h2
      injection h2 with hr he
      subst he
      exact ⟨formatted, rfl⟩

/-- C8 witness: the prepending statement instantiated at a concrete
successful save. -/
theorem c8_frontmatter_exact_witness :
    ∃ body,
      ({ sampleEnv with vault := [(["Claude Code", "20240102_030405_T.md"],
          "---\ncreated: 2024-01-02T03:04:05\nsource: claude-code\ntags: [\x27claude-code\x27, \x27note\x27, \x27proj\x27]\n---\n\nHello")] } : Env).vault =
        (pathSegsOf ((getProjectConfig sampleEnv.ancestors).folder.getD "Claude Code") ++
           [deriveFilename "T" sampleEnv.now],
         generateFrontmatter (["claude-code", "note", lowerStr sampleEnv.cwdName] ++ [])
             sampleEnv.now ++ body) :: sampleEnv.vault :=
  c8_frontmatter_exact.2.2.2.2 sampleEnv "Hello" "T" "note" []
    { texts := ["Successfully saved note \x27T\x27 to /home/u/vault/Claude Code/20240102_030405_T.md\nProject: proj\nFolder: Claude Code"],
      isError := false }
    { sampleEnv with vault := [(["Claude Code", "20240102_030405_T.md"],
        "---\ncreated: 2024-01-02T03:04:05\nsource: claude-code\ntags: [\x27claude-code\x27, \x27note\x27, \x27proj\x27]\n---\n\nHello")] }
    rfl

/-- C10: `save_claude_response` with non-null arguments appends `.md`
exactly when the filename does not already end in `.md`, writes the
front matter followed by the content verbatim at the vault root joined
with that filename — no sanitization, no configured project folder —
and any `/` in the filename stays a directory component of the written
path. -/
theorem c10_raw_save (env : Env) (content fname : String) (tags : List String) :
    saveClaudeResponse env (some content) (some fname) tags =
      Except.ok
        ({ texts := ["Successfully saved response to " ++ env.vaultRootStr ++ "/" ++
            (if strEndsWith fname ".md" then fname else fname ++ ".md")],
           isError := false },
         { env with vault :=
            (pathSegsOf (if strEndsWith fname ".md" then fname else fname ++ ".md"),
             generateFrontmatter tags env.now ++ content) :: env.vault })
    ∧ (strEndsWith fname ".md" = true →
        (if strEndsWith fname ".md" then fname else fname ++ ".md") = fname)
    ∧ (strEndsWith fname ".md" = false →
        (if strEndsWith fname ".md" then fname else fname ++ ".md") = fname ++ ".md")
    ∧ pathSegsOf "nested/dir/note.md" = ["nested", "dir", "note.md"] := by
  refine ⟨rfl, fun h => by rw [if_pos h], fun h => ?_, by decide⟩
  rw [if_neg (by simp [h])]

/-- C10 witness: a filename without the extension gets `.md` appended. -/
theorem c10_raw_save_witness :
    (if strEndsWith "notes/recap" ".md" then "notes/recap" else "notes/recap" ++ ".md") =
      "notes/recap" ++ ".md" :=
  (c10_raw_save sampleEnv "body" "notes/recap" ["claude-code"]).2.2.1 (by decide)

/-- C2: every exception raised while handling a tool call — including the
`Unknown tool` error for an unrecognized name — is converted into a
structured `isError` result carrying the message; the handler is a total
function (the model's `handleCallTool` cannot raise), and the serving
loop yields exactly one result per request, so the server keeps serving
after a tool-level error. -/
theorem c2_tool_errors_handled :
    (∀ (req : ToolRequest) (env : Env) (e : String),
       dispatch req env = Except.error e →
       handleCallTool req env = ({ texts := ["Error: " ++ e], isError := true }, env))
    ∧ (∀ (req : ToolRequest) (env : Env),
       req.name ∉ (["save_claude_response", "list_vault_files", "get_vault_structure",
         "save_to_obsidian"] : List String) →
       dispatch req env = Except.error ("Unknown tool: " ++ req.name))
    ∧ (∀ (reqs : List ToolRequest) (env : Env), (serve reqs env).1.length = reqs.length) := by
  refine ⟨?_, ?_, ?_⟩
  · intro req env e h
    unfold handleCallTool
    rw [h]
  · intro req env h
    simp only [List.mem_cons, List.not_mem_nil, or_false, not_or] at h
    obtain ⟨h1, h2, h3, h4⟩ := h
    unfold dispatch
    rw [if_neg h1, if_neg h2, if_neg h3, if_neg h4]
  · intro reqs
    induction reqs with
    | nil => intro env; rfl
    | cons r rs ih => intro env; simp [serve, ih]

/-- C2 witness: an unknown tool name yields the structured error result
and leaves the state untouched. -/
theorem c2_tool_errors_handled_witness :
    handleCallTool { name := "bogus_tool", args := {} } sampleEnv =
      ({ texts := ["Error: " ++ ("Unknown tool: " ++ "bogus_tool")], isError := true },
       sampleEnv) :=
  c2_tool_errors_handled.1 { name := "bogus_tool", args := {} } sampleEnv _
    (c2_tool_errors_handled.2.1 { name := "bogus_tool", args := {} } sampleEnv (by decide))

/-- C1 (spec-modelled, the `read_obsidian_url` tool is absent from
`src/`): for a vault-scheme URL carrying a `file` query parameter, the
resolver percent-decodes the parameter, maps its `/`-separated segments
beneath the vault root, appends `.md` when the final segment has no
extension, fails with `NotFoundError` when no such file exists, and
otherwise returns the vault name, relative path, absolute path, and
file text; in particular the spec's example URL resolves to
`root/Notes/My Note.md`. -/
theorem c1_read_obsidian_url :
    (∀ (params : List (String × String)) (root : List String)
       (fs : List (List String × String)) (fileRaw : String),
       params.lookup "file" = some fileRaw →
       resolveParams root fs params =
         match fs.lookup (mdDefaulted (pathSegsOf (percentDecode fileRaw))) with
         | none => Except.error UrlError.notFound
         | some text =>
           Except.ok ((params.lookup "vault").getD "",
             mdDefaulted (pathSegsOf (percentDecode fileRaw)),
             root ++ mdDefaulted (pathSegsOf (percentDecode fileRaw)), text))
    ∧ (∀ (segs : List String) (last : String), pySuffix last = "" →
        mdDefaulted (segs ++ [last]) = segs ++ [last ++ ".md"])
    ∧ (∀ (root : List String) (fs : List (List String × String)),
        fs.lookup ["Notes", "My Note.md"] = none →
        resolveUrl "obsidian://open?vault=X&file=Notes%2FMy%20Note" root fs =
          Except.error UrlError.notFound)
    ∧ (∀ (root : List String) (fs : List (List String × String)) (text : String),
        fs.lookup ["Notes", "My Note.md"] = some text →
        resolveUrl "obsidian://open?vault=X&file=Notes%2FMy%20Note" root fs =
          Except.ok ("X", ["Notes", "My Note.md"], root ++ ["Notes", "My Note.md"], text)) := by
  have p1 : ∀ (params : List (String × String)) (root : List String)
      (fs : List (List String × String)) (fileRaw : String),
      params.lookup "file" = some fileRaw →
      resolveParams root fs params =
        match fs.lookup (mdDefaulted (pathSegsOf (percentDecode fileRaw))) with
        | none => Except.error UrlError.notFound
        | some text =>
          Except.ok ((params.lookup "vault").getD "",
            mdDefaulted (pathSegsOf (percentDecode fileRaw)),
            root ++ mdDefaulted (pathSegsOf (percentDecode fileRaw)), text) := by
    intro params root fs fileRaw h
    unfold resolveParams
    rw [h]
  have hp : parseVaultUrl "obsidian://open?vault=X&file=Notes%2FMy%20Note" =
      Except.ok [("vault", "X"), ("file", "Notes%2FMy%20Note")] := rfl
  have hseg : mdDefaulted (pathSegsOf (percentDecode "Notes%2FMy%20Note")) =
      ["Notes", "My Note.md"] := rfl
  refine ⟨p1, ?_, ?_, ?_⟩
  · intro segs last h
    unfold mdDefaulted
    rw [List.getLast?_concat]
    simp only [if_pos h, List.dropLast_concat]
  · intro root fs h
    unfold resolveUrl
    rw [hp]
    have h1 := p1 [("vault", "X"), ("file", "Notes%2FMy%20Note")] root fs "Notes%2FMy%20Note" rfl
    show resolveParams root fs [("vault", "X"), ("file", "Notes%2FMy%20Note")] = _
    rw [h1, hseg, h]
  · intro root fs text h
    unfold resolveUrl
    rw [hp]
    have h1 := p1 [("vault", "X"), ("file", "Notes%2FMy%20Note")] root fs "Notes%2FMy%20Note" rfl
    show resolveParams root fs [("vault", "X"), ("file", "Notes%2FMy%20Note")] = _
    rw [h1, hseg, h]
    exact rfl

/-- C1 witness: the example URL read against a one-file vault returns
the file's text; `Notes%2FMy%20Note` decodes and resolves to
`Notes/My Note.md`. -/
theorem c1_read_obsidian_url_witness :
    resolveUrl "obsidian://open?vault=X&file=Notes%2FMy%20Note" ["root"]
        [(["Notes", "My Note.md"], "hello")] =
      Except.ok ("X", ["Notes", "My Note.md"], ["root", "Notes", "My Note.md"], "hello") :=
  c1_read_obsidian_url.2.2.2 ["root"] [(["Notes", "My Note.md"], "hello")] "hello" rfl

theorem treeGo_succ (fuel maxD d : Nat) (indent : String) (items : List FsEntry) :
    treeGo (fuel + 1) maxD d indent items =
      treeGoList
        (fun item subIndent =>
          match item with
          | FsEntry.dir _ cs =>
            if d < maxD then treeGo fuel maxD (d + 1) subIndent (pyItems cs) else ""
          | FsEntry.file _ => "")
        indent items := rfl

theorem treeLines_succ (fuel maxD d : Nat) (indent : String) (items : List FsEntry) :
    treeLines (fuel + 1) maxD d indent items =
      treeLinesList
        (fun item subIndent =>
          match item with
          | FsEntry.dir _ cs =>
            if d < maxD then treeLines fuel maxD (d + 1) subIndent (pyItems cs) else []
          | FsEntry.file _ => [])
        d indent items := rfl

theorem renderLines_append (xs ys : List TreeLine) :
    renderLines (xs ++ ys) = renderLines xs ++ renderLines ys := by
  induction xs with
  | nil => rfl
  | cons l ls ih => simp [renderLines, ih, String.append_assoc]

theorem treeGoList_eq_render (recS : FsEntry → String → String)
    (recL : FsEntry → String → List TreeLine) (d : Nat) (indent : String)
    (hrec : ∀ it s, recS it s = renderLines (recL it s)) :
    ∀ items, treeGoList recS indent items = renderLines (treeLinesList recL d indent items) := by
  intro items
  induction items with
  | nil => rfl
  | cons item rest ih =>
    simp only [treeGoList, treeLinesList, renderLines, renderLines_append, hrec, ih]
    simp [String.append_assoc]

theorem treeGo_eq_render :
    ∀ (fuel maxD d : Nat) (indent : String) (items : List FsEntry),
      treeGo fuel maxD d indent items = renderLines (treeLines fuel maxD d indent items) := by
  intro fuel
  induction fuel with
  | zero => intro maxD d indent items; rfl
  | succ fuel ih =>
    intro maxD d indent items
    rw [treeGo_succ, treeLines_succ]
    apply treeGoList_eq_render _ _ d indent
    intro it s
    cases it with
    | dir nm cs =>
      by_cases hd : d < maxD
      · simp only [if_pos hd]
        exact ih maxD (d + 1) s (pyItems cs)
      · simp only [if_neg hd]
        rfl
    | file nm => rfl

theorem treeLinesList_mem (recL : FsEntry → String → List TreeLine) (d : Nat) (indent : String)
    (P : TreeLine → Prop)
    (hhead : ∀ nm mk, mk = "├── " ∨ mk = "└── " →
      P { depth := d, ind := indent, mark := mk, nm := nm })
    (hrec : ∀ it u l, (u = "    " ∨ u = "│   ") → l ∈ recL it (indent ++ u) → P l) :
    ∀ items, ∀ l ∈ treeLinesList recL d indent items, P l := by
  intro items
  induction items with
  | nil => intro l hl; simp [treeLinesList] at hl
  | cons item rest ih =>
    intro l hl
    simp only [treeLinesList] at hl
    rcases List.mem_cons.mp hl with h | h
    · subst h
      apply hhead
      cases rest.isEmpty <;> simp
    · rcases List.mem_append.mp h with h | h
      · refine hrec item (if rest.isEmpty then "    " else "│   ") l ?_ h
        cases rest.isEmpty <;> simp
      · exact ih l h

theorem treeLines_indent_ge :
    ∀ (fuel maxD d : Nat) (indent : String) (items : List FsEntry),
      ∀ l ∈ treeLines fuel maxD d indent items, indent.length ≤ l.ind.length := by
  intro fuel
  induction fuel with
  | zero => intro maxD d indent items l hl; simp [treeLines] at hl
  | succ fuel ih =>
    intro maxD d indent items
    rw [treeLines_succ]
    apply treeLinesList_mem _ d indent (fun l => indent.length ≤ l.ind.length)
    · intro nm mk _
      exact Nat.le_refl _
    · intro it u l hu hl
      cases it with
      | dir nm cs =>
        have hl2 : l ∈ (if d < maxD then
            treeLines fuel maxD (d + 1) (indent ++ u) (pyItems cs) else []) := hl
        by_cases hd : d < maxD
        · rw [if_pos hd] at hl2
          have h1 := ih maxD (d + 1) (indent ++ u) (pyItems cs) l hl2
          have h2 : (indent ++ u).length = indent.length + u.length :=
            String.length_append _ _
          omega
        · rw [if_neg hd] at hl2
          simp at hl2
      | file nm =>
        have hl2 : l ∈ ([] : List TreeLine) := hl
        simp at hl2

theorem treeLines_depth_bound :
    ∀ (fuel maxD d : Nat) (indent : String) (items : List FsEntry),
      d ≤ maxD → indent.length = 4 * d →
      ∀ l ∈ treeLines fuel maxD d indent items,
        d ≤ l.depth ∧ l.depth ≤ maxD ∧ l.ind.length = 4 * l.depth ∧
          (l.mark = "├── " ∨ l.mark = "└── ") := by
  intro fuel
  induction fuel with
  | zero => intro maxD d indent items _ _ l hl; simp [treeLines] at hl
  | succ fuel ih =>
    intro maxD d indent items hdm hind
    rw [treeLines_succ]
    apply treeLinesList_mem _ d indent
    · intro nm mk hmk
      exact ⟨Nat.le_refl _, hdm, hind, hmk⟩
    · intro it u l hu hl
      cases it with
      | dir nm cs =>
        have hl2 : l ∈ (if d < maxD then
            treeLines fuel maxD (d + 1) (indent ++ u) (pyItems cs) else []) := hl
        by_cases hd : d < maxD
        · rw [if_pos hd] at hl2
          have hu4 : u.length = 4 := by rcases hu with h | h <;> subst h <;> decide
          have hind2 : (indent ++ u).length = 4 * (d + 1) := by
            rw [String.length_append, hind, hu4]
            omega
          have := ih maxD (d + 1) (indent ++ u) (pyItems cs) hd hind2 l hl2
          exact ⟨by omega, this.2.1, this.2.2.1, this.2.2.2⟩
        · rw [if_neg hd] at hl2
          simp at hl2
      | file nm =>
        have hl2 : l ∈ ([] : List TreeLine) := hl
        simp at hl2

theorem treeLinesList_filterMap (recL : FsEntry → String → List TreeLine) (d : Nat)
    (indent : String)
    (hrec : ∀ it u l, (u = "    " ∨ u = "│   ") → l ∈ recL it (indent ++ u) →
      indent.length < l.ind.length) :
    ∀ items, (treeLinesList recL d indent items).filterMap
        (fun l => if l.ind = indent then some l.nm else none) = items.map FsEntry.nameOf := by
  intro items
  induction items with
  | nil => rfl
  | cons item rest ih =>
    simp only [treeLinesList, List.filterMap_cons, List.filterMap_append]
    have hr : (recL item (indent ++ (if rest.isEmpty then "    " else "│   "))).filterMap
        (fun l => if l.ind = indent then some l.nm else none) = [] := by
      rw [List.filterMap_eq_nil_iff]
      intro l hl
      have hlt := hrec item (if rest.isEmpty then "    " else "│   ") l
        (by cases rest.isEmpty <;> simp) hl
      rw [if_neg]
      intro he
      rw [he] at hlt
      exact Nat.lt_irrefl _ hlt
    rw [hr, ih]
    simp

/-- C9: the text printed by `build_tree` is the rendering of its
structural line list; every line's entry depth (0 = direct child of the
vault root, the code's `current_depth`) is at most `max_depth`, and its
indentation is exactly 4 characters per depth level; and at every level
of the recursion the sibling entries — the lines carrying that level's
exact indentation prefix — appear in the alphabetically sorted order
produced by `sorted`. -/
theorem c9_tree_structure (maxD : Nat) (root : List FsEntry) :
    buildTree maxD root = renderLines (treeLines (maxD + 1) maxD 0 "" (pyItems root))
    ∧ (∀ l ∈ treeLines (maxD + 1) maxD 0 "" (pyItems root),
        l.depth ≤ maxD ∧ l.ind.length = 4 * l.depth ∧
          (l.mark = "├── " ∨ l.mark = "└── "))
    ∧ (∀ cs : List FsEntry, List.Pairwise nameLe (pyItems cs))
    ∧ (∀ (fuel d : Nat) (indent : String) (cs : List FsEntry),
        (treeLines (fuel + 1) maxD d indent (pyItems cs)).filterMap
          (fun l => if l.ind = indent then some l.nm else none) =
          (pyItems cs).map FsEntry.nameOf) := by
  refine ⟨treeGo_eq_render _ _ _ _ _, ?_, ?_, ?_⟩
  · intro l hl
    have h := treeLines_depth_bound (maxD + 1) maxD 0 "" (pyItems root)
      (Nat.zero_le _) rfl l hl
    exact ⟨h.2.1, h.2.2.1, h.2.2.2⟩
  · intro cs
    exact List.sorted_insertionSort nameLe _
  · intro fuel d indent cs
    rw [treeLines_succ]
    apply treeLinesList_filterMap
    intro it u l hu hl
    cases it with
    | dir nm cs2 =>
      have hl2 : l ∈ (if d < maxD then
          treeLines fuel maxD (d + 1) (indent ++ u) (pyItems cs2) else []) := hl
      by_cases hd : d < maxD
      · rw [if_pos hd] at hl2
        have h1 := treeLines_indent_ge fuel maxD (d + 1) (indent ++ u) (pyItems cs2) l hl2
        have h2 : (indent ++ u).length = indent.length + u.length := String.length_append _ _
        have h3 : 0 < u.length := by rcases hu with h | h <;> subst h <;> decide
        omega
      · rw [if_neg hd] at hl2
        simp at hl2
    | file nm =>
      have hl2 : l ∈ ([] : List TreeLine) := hl
      simp at hl2

/-- C9 witness: the depth/indentation statement applied to the first
line of a small two-entry vault at `max_depth = 1`. -/
theorem c9_tree_structure_witness :
    ({ depth := 0, ind := "", mark := "├── ", nm := "a.md" } : TreeLine).depth ≤ 1 ∧
    ({ depth := 0, ind := "", mark := "├── ", nm := "a.md" } : TreeLine).ind.length =
      4 * ({ depth := 0, ind := "", mark := "├── ", nm := "a.md" } : TreeLine).depth ∧
    (({ depth := 0, ind := "", mark := "├── ", nm := "a.md" } : TreeLine).mark = "├── " ∨
      ({ depth := 0, ind := "", mark := "├── ", nm := "a.md" } : TreeLine).mark = "└── ") :=
  (c9_tree_structure 1 [FsEntry.dir "b" [FsEntry.file "y.md"], FsEntry.file "a.md"]).2.1
    { depth := 0, ind := "", mark := "├── ", nm := "a.md" } (by decide)
